import Mathlib

/-!
Verification of the media tracking reconciliation engine of `nodelike/mini-blog`.

The Go source (src/app/handlers/base.go, src/app/handlers/auth.go,
src/app/models/models.go) is shallowly embedded below.  The GORM-backed
database is modelled as a `Store` holding the three entity tables as lists;
wall-clock readings (`time.Now()`) become explicit `Int` parameters, and Go
`*time.Time` fields become `Option Int`.  Float64 fields (`rating`,
`vote_average`) are modelled by integers: no claim performs fractional
arithmetic on them, they are only copied and compared.

Two pieces of storage-layer behaviour are modelled deliberately:
* SQL comparisons against a NULL column are not satisfied, so a GORM `Where`
  clause `air_date <= ?` excludes rows whose air date is NULL (`sqlLe`).
* A GORM v2 struct-based `Updates` call applies only the fields of the
  argument struct whose value is NOT the Go zero value.  An update struct
  `models.Episode{Watched: false, WatchedAt: nil}` therefore assigns no
  watch column at all (only the automatic `updated_at`), leaving the rows'
  `watched`/`watched_at` unchanged; map-based `Updates` calls
  (`map[string]interface{}{...}`) apply every listed column, zero or not.
-/

namespace MiniBlog

/-- models.Episode (src/app/models/models.go).  The `deleted_at` column of
`BaseModel` is omitted: no code path ever soft-deletes an episode (removal
uses `Unscoped()`), so the column is always NULL. -/
structure Episode where
  tmdbID : Int := 0
  seasonNumber : Int := 0
  episodeNumber : Int := 0
  name : String := ""
  overview : String := ""
  airDate : Option Int := none
  runtime : Int := 0
  stillPath : String := ""
  voteAverage : Int := 0
  voteCount : Int := 0
  watched : Bool := false
  watchedAt : Option Int := none
deriving Repr, DecidableEq

/-- models.Season (src/app/models/models.go); `deleted_at` omitted as for
`Episode`. -/
structure Season where
  tmdbID : Int := 0
  seasonNumber : Int := 0
  name : String := ""
  overview : String := ""
  airDate : Option Int := none
  episodeCount : Int := 0
  posterPath : String := ""
deriving Repr, DecidableEq

/-- models.Media (src/app/models/models.go).  `id` is the `BaseModel`
primary key; `deletedAt` is the gorm soft-delete column, which MediaDelete
can set.  Field defaults are the Go zero values. -/
structure Media where
  id : Nat := 0
  tmdbID : Int := 0
  mediaType : String := ""
  title : String := ""
  overview : String := ""
  posterPath : String := ""
  releaseDate : Option Int := none
  genres : String := ""
  popularity : Int := 0
  voteCount : Int := 0
  voteAverage : Int := 0
  isAnime : Bool := false
  status : String := ""
  progress : Int := 0
  totalEpisodes : Int := 0
  rating : Int := 0
  notes : String := ""
  addedAt : Int := 0
  lastSyncedAt : Option Int := none
  deletedAt : Option Int := none
deriving Repr, DecidableEq

/-- The three GORM tables the reconciliation engine touches. -/
structure Store where
  media : List Media := []
  seasons : List Season := []
  episodes : List Episode := []
deriving Repr, DecidableEq

/-- models.IsValidStatus (src/app/models, constants file). -/
def isValidStatus (s : String) : Bool :=
  s == "watching" || s == "completed" || s == "planned" || s == "dropped"

/-- SQL semantics of `air_date <= t`: a NULL column satisfies no
comparison, so the predicate is false when the air date is absent. -/
def sqlLe (a : Option Int) (t : Int) : Bool :=
  match a with
  | some d => d ≤ t
  | none => false

/-- Go `episode.AirDate == nil || episode.AirDate.Before(now)` from
MediaAdd (src/app/handlers/auth.go:440): nil pointer counts as true, and
`Before` is a strict comparison. -/
def goNilOrBefore (a : Option Int) (t : Int) : Bool :=
  match a with
  | some d => d < t
  | none => true

/-- GORM `First(&media)` with `tmdb_id = ?`: first row matching the filter,
honouring the default soft-delete scope (`deleted_at IS NULL`). -/
def findMediaByTMDB (st : Store) (tmdbID : Int) : Option Media :=
  st.media.find? (fun m => m.tmdbID == tmdbID && m.deletedAt == none)

/-- GORM `First(&media, id)`: primary-key lookup, soft-delete aware. -/
def findMediaByID (st : Store) (id : Nat) : Option Media :=
  st.media.find? (fun m => m.id == id && m.deletedAt == none)

/-- GORM `Save(&media)`: write the row back by primary key. -/
def saveMedia (st : Store) (m : Media) : Store :=
  { st with media := st.media.map (fun x => if x.id == m.id then m else x) }

/-- The `Count` query of updateMediaProgress (src/app/handlers/base.go:296):
episodes of the show with `watched = true`. -/
def countWatched (st : Store) (tmdbID : Int) : Int :=
  ((st.episodes.filter (fun e => e.tmdbID == tmdbID && e.watched)).length : Int)

/-- The `Count` query of MediaAdd (src/app/handlers/auth.go:457): watched
episodes whose air date is non-NULL and not in the future. -/
def countWatchedAired (st : Store) (tmdbID : Int) (now : Int) : Int :=
  ((st.episodes.filter
      (fun e => e.tmdbID == tmdbID && e.watched && sqlLe e.airDate now)).length : Int)

/-- Status derivation of updateMediaProgress (src/app/handlers/base.go:299-305). -/
def deriveStatus (totalWatched totalEpisodes : Int) : String :=
  if totalWatched == 0 then "planned"
  else if totalEpisodes > 0 && totalWatched ≥ totalEpisodes then "completed"
  else "watching"

/-- updateMediaProgress (src/app/handlers/base.go:292-308): recount the
watched episodes of the show and rewrite progress and status.  A missing
media row makes the helper a no-op. -/
def updateMediaProgress (st : Store) (tmdbID : Int) : Store :=
  match findMediaByTMDB st tmdbID with
  | none => st
  | some m =>
      let totalWatched := countWatched st tmdbID
      saveMedia st
        { m with progress := totalWatched
                 status := deriveStatus totalWatched m.totalEpisodes }

/-- The three WHERE clauses built by markEpisodes (src/app/handlers/base.go:
224-245), keyed by the scope string.  Only the "episode" scope admits a NULL
air date (`air_date IS NULL OR air_date <= ?`); the "season" and "show"
clauses say `air_date <= ?` alone, which a NULL column never satisfies. -/
def whereMatches (scope : String) (tmdbID seasonNumber episodeNumber now : Int)
    (e : Episode) : Bool :=
  if scope == "episode" then
    e.tmdbID == tmdbID && e.seasonNumber == seasonNumber &&
      e.episodeNumber == episodeNumber && (e.airDate.isNone || sqlLe e.airDate now)
  else if scope == "season" then
    e.tmdbID == tmdbID && e.seasonNumber == seasonNumber && sqlLe e.airDate now
  else if scope == "show" then
    e.tmdbID == tmdbID && sqlLe e.airDate now
  else false

inductive MarkError where
  | invalidTMDBID
  | invalidInput
  | invalidSeason
  | invalidScope
  | noEligibleEpisodes
deriving Repr, DecidableEq

/-- Result of a markEpisodes request: the handler returns an HTTP error (and
leaves the database untouched) or succeeds with the mutated database. -/
structure MarkResult where
  store : Store
  error : Option MarkError
deriving Repr, DecidableEq

/-- The toggle core of markEpisodes (src/app/handlers/base.go:253-271): if
every eligible episode is watched the code runs a struct-based `Updates`
whose fields are all Go zero values, which GORM turns into an assignment of
no watch column - the episode rows keep their state.  Otherwise every
eligible row is set watched with the fresh timestamp. -/
def applyToggle (st : Store) (pred : Episode → Bool) (now : Int) : Store :=
  if ((st.episodes.filter pred).filter (fun e => e.watched)).length ==
      (st.episodes.filter pred).length then st
  else
    { st with episodes := st.episodes.map (fun e =>
        if pred e then { e with watched := true, watchedAt := some now } else e) }

/-- Shared tail of markEpisodes: reject an empty eligible set before any
mutation, otherwise toggle and recompute the aggregate. -/
def runToggle (st : Store) (pred : Episode → Bool) (tmdbID now : Int) : MarkResult :=
  if (st.episodes.filter pred).isEmpty then ⟨st, some .noEligibleEpisodes⟩
  else ⟨updateMediaProgress (applyToggle st pred now) tmdbID, none⟩

/-- markEpisodes (src/app/handlers/base.go:208-289).  `seasonNumber` and
`episodeNumber` are the parsed URL parameters (0 when absent or malformed);
`now` is the single `time.Now()` snapshot captured in the WHERE arguments.
The later `time.Now()` used for the watched-at column is identified with the
same snapshot: only the stored timestamp value, never its presence, could
differ. -/
def markEpisodes (st : Store) (tmdbID seasonNumber episodeNumber : Int)
    (scope : String) (now : Int) : MarkResult :=
  if tmdbID == 0 then ⟨st, some .invalidTMDBID⟩
  else if scope == "episode" then
    if seasonNumber == 0 || episodeNumber == 0 then ⟨st, some .invalidInput⟩
    else runToggle st (whereMatches scope tmdbID seasonNumber episodeNumber now) tmdbID now
  else if scope == "season" then
    if seasonNumber == 0 then ⟨st, some .invalidSeason⟩
    else runToggle st (whereMatches scope tmdbID seasonNumber episodeNumber now) tmdbID now
  else if scope == "show" then
    runToggle st (whereMatches scope tmdbID seasonNumber episodeNumber now) tmdbID now
  else ⟨st, some .invalidScope⟩

/-- The catalog fields of a `GetDetails` result that SyncMedia and MediaAdd
read (src/app/services tmdb client, src/app/handlers/base.go:406-410). -/
structure CatalogDetails where
  title : String := ""
  overview : String := ""
  posterPath : String := ""
  releaseDate : Option Int := none
  genres : String := ""
  popularity : Int := 0
  voteCount : Int := 0
  voteAverage : Int := 0
deriving Repr, DecidableEq

/-- A TMDB episode as mapped by `GetDetailedEpisodes` before the local
tracking fields are considered. -/
structure CatalogEpisode where
  episodeNumber : Int := 0
  name : String := ""
  overview : String := ""
  airDate : Option Int := none
  runtime : Int := 0
  stillPath : String := ""
  voteAverage : Int := 0
  voteCount : Int := 0
deriving Repr, DecidableEq

/-- GetDetailedEpisodes builds a `models.Episode` from a TMDB episode; the
tracking fields keep their Go zero values (`watched=false`,
`watchedAt=nil`). -/
def CatalogEpisode.toEpisode (tmdbID seasonNumber : Int) (c : CatalogEpisode) :
    Episode :=
  { tmdbID := tmdbID
    seasonNumber := seasonNumber
    episodeNumber := c.episodeNumber
    name := c.name
    overview := c.overview
    airDate := c.airDate
    runtime := c.runtime
    stillPath := c.stillPath
    voteAverage := c.voteAverage
    voteCount := c.voteCount
    watched := false
    watchedAt := none }

/-- One entry of the upstream season data used by SyncMedia and MediaAdd: a
`GetDetailedSeasons` row together with the `GetDetailedEpisodes` response for
its season number. -/
structure CatalogSeasonData where
  season : Season
  episodes : List CatalogEpisode
deriving Repr, DecidableEq

/-- GetDetails maps TMDB details into a fresh `models.Media`; tracking
fields keep their Go zero values. -/
def detailsToMedia (tmdbID : Int) (mediaType : String) (d : CatalogDetails) :
    Media :=
  { tmdbID := tmdbID
    mediaType := mediaType
    title := d.title
    overview := d.overview
    posterPath := d.posterPath
    releaseDate := d.releaseDate
    genres := d.genres
    popularity := d.popularity
    voteCount := d.voteCount
    voteAverage := d.voteAverage }

/-- Season upsert of SyncMedia (src/app/handlers/base.go:426-433): look up
by (tmdb id, season number); create the catalog row when missing, otherwise
rewrite only the name and episode count of the stored row. -/
def upsertSeasonSync (st : Store) (tmdbID : Int) (s : Season) : Store :=
  if st.seasons.any (fun x => x.tmdbID == tmdbID && x.seasonNumber == s.seasonNumber) then
    { st with seasons := st.seasons.map (fun x =>
        if x.tmdbID == tmdbID && x.seasonNumber == s.seasonNumber then
          { x with name := s.name, episodeCount := s.episodeCount }
        else x) }
  else { st with seasons := st.seasons ++ [s] }

/-- Episode upsert of SyncMedia (src/app/handlers/base.go:437-448): look up
by (tmdb id, season number, episode number); create the catalog row when
missing, otherwise rewrite only name, overview and air date - the watch
state of a stored episode is never touched. -/
def upsertEpisodeSync (st : Store) (tmdbID seasonNumber : Int) (e : Episode) :
    Store :=
  if st.episodes.any (fun x => x.tmdbID == tmdbID &&
      x.seasonNumber == seasonNumber && x.episodeNumber == e.episodeNumber) then
    { st with episodes := st.episodes.map (fun x =>
        if x.tmdbID == tmdbID && x.seasonNumber == seasonNumber &&
            x.episodeNumber == e.episodeNumber then
          { x with name := e.name, overview := e.overview, airDate := e.airDate }
        else x) }
  else { st with episodes := st.episodes ++ [e] }

inductive SyncError where
  | notFound
deriving Repr, DecidableEq

/-- The catalog fields SyncMedia copies onto the stored media row
(src/app/handlers/base.go:406-412). -/
def syncFields (m : Media) (details : CatalogDetails) (now : Int) : Media :=
  { m with title := details.title
           overview := details.overview
           posterPath := details.posterPath
           voteCount := details.voteCount
           voteAverage := details.voteAverage
           lastSyncedAt := some now }

/-- The per-season step of the SyncMedia loop (src/app/handlers/base.go:
421-450): skip season 0, upsert the season row, upsert each of its episodes
and accumulate the episode count. -/
def syncSeasonStep (tmdbID : Int) (acc : Store × Int) (sd : CatalogSeasonData) :
    Store × Int :=
  if sd.season.seasonNumber > 0 then
    let stA := upsertSeasonSync acc.1 tmdbID sd.season
    let stB := sd.episodes.foldl
      (fun s c => upsertEpisodeSync s tmdbID sd.season.seasonNumber
        (c.toEpisode tmdbID sd.season.seasonNumber)) stA
    (stB, acc.2 + sd.season.episodeCount)
  else acc

/-- SyncMedia (src/app/handlers/base.go:393-460).  The upstream responses
are passed in as data: `details` is the `GetDetails` result and `seasonData`
pairs each `GetDetailedSeasons` row with its `GetDetailedEpisodes` response
(an upstream failure for a season surfaces as an empty episode list, exactly
as the ignored error does in the source).  `now` is the sync timestamp. -/
def syncMedia (st : Store) (tmdbID : Int) (details : CatalogDetails)
    (seasonData : List CatalogSeasonData) (now : Int) : Except SyncError Store :=
  match findMediaByTMDB st tmdbID with
  | none => .error .notFound
  | some m =>
      let m1 := syncFields m details now
      if m.mediaType == "tv" then
        let res := seasonData.foldl (syncSeasonStep tmdbID) (saveMedia st m1, 0)
        .ok (saveMedia res.1
          { m1 with totalEpisodes := res.2, progress := countWatched res.1 tmdbID })
      else .ok (saveMedia st m1)

inductive AddError where
  | invalidInput
  | conflict
deriving Repr, DecidableEq

/-- The per-season step of MediaAdd (src/app/handlers/auth.go:422-451):
skip season 0, create the season row when missing, and create every episode
row that is missing; when the seeded status is "completed" a new episode
whose air date is nil or strictly in the past is created already watched. -/
def addSeasonStep (tmdbID : Int) (status : String) (now : Int)
    (acc : Store × Int) (sd : CatalogSeasonData) : Store × Int :=
  if sd.season.seasonNumber > 0 then
    let stA :=
      if acc.1.seasons.any (fun x => x.tmdbID == tmdbID &&
          x.seasonNumber == sd.season.seasonNumber) then acc.1
      else { acc.1 with seasons := acc.1.seasons ++ [sd.season] }
    let stB := sd.episodes.foldl (fun s c =>
      if s.episodes.any (fun x => x.tmdbID == tmdbID &&
          x.seasonNumber == sd.season.seasonNumber &&
          x.episodeNumber == c.episodeNumber) then s
      else
        let e0 := c.toEpisode tmdbID sd.season.seasonNumber
        let e1 :=
          if status == "completed" && goNilOrBefore e0.airDate now then
            { e0 with watched := true, watchedAt := some now }
          else e0
        { s with episodes := s.episodes ++ [e1] }) stA
    (stB, acc.2 + sd.season.episodeCount)
  else acc

/-- The defaulting of the status form value in MediaAdd
(src/app/handlers/auth.go:392-395). -/
def addStatus (statusForm : String) : String :=
  if statusForm == "" then "planned" else statusForm

/-- The input validation of MediaAdd (src/app/handlers/auth.go:397):
parseMediaParams demands a positive tmdb id and a known media type, and the
status must be a valid tracking status. -/
def addInvalid (tmdbID : Int) (mediaType status : String) : Bool :=
  !(tmdbID > 0 && (mediaType == "movie" || mediaType == "tv")) ||
    !isValidStatus status

/-- MediaAdd (src/app/handlers/auth.go:385-468).  `statusForm` is the raw
form value (empty defaults to "planned"); `newId` is the primary key the
database assigns to the created media row; the upstream responses are passed
in as for `syncMedia`. -/
def mediaAdd (st : Store) (tmdbID : Int) (mediaType statusForm : String)
    (isAnime : Bool) (details : CatalogDetails)
    (seasonData : List CatalogSeasonData) (now : Int) (newId : Nat) :
    Except AddError Store :=
  if addInvalid tmdbID mediaType (addStatus statusForm) then .error .invalidInput
  else if (findMediaByTMDB st tmdbID).isSome then .error .conflict
  else
    let fetched0 := { detailsToMedia tmdbID mediaType details with
                        status := addStatus statusForm, addedAt := now,
                        isAnime := isAnime }
    if mediaType == "tv" then
      let res := seasonData.foldl
        (addSeasonStep tmdbID (addStatus statusForm) now) (st, 0)
      let fetched1 := { fetched0 with totalEpisodes := res.2 }
      let fetched2 :=
        if addStatus statusForm == "completed" then
          { fetched1 with progress := countWatchedAired res.1 tmdbID now }
        else fetched1
      .ok { res.1 with media := res.1.media ++ [{ fetched2 with id := newId }] }
    else .ok { st with media := st.media ++ [{ fetched0 with id := newId }] }

inductive UpdateError where
  | invalidID
  | notFound
deriving Repr, DecidableEq

/-- MediaUpdate (src/app/handlers/auth.go:470-509).  The form values arrive
pre-parsed: `statusForm` is the trimmed status string (empty or invalid is
skipped), `progressForm`/`ratingForm` are `none` when the field is empty or
fails to parse, and the notes field is always overwritten.  Progress is
stored verbatim, with no recomputation from episode rows. -/
def mediaUpdate (st : Store) (id : Nat) (statusForm : String)
    (progressForm : Option Int) (ratingForm : Option Int) (notesForm : String) :
    Except UpdateError Store :=
  match findMediaByID st id with
  | none => .error .notFound
  | some m =>
      let m1 := if statusForm != "" && isValidStatus statusForm then
                  { m with status := statusForm } else m
      let m2 := match progressForm with
                | some p => { m1 with progress := p }
                | none => m1
      let m3 := match ratingForm with
                | some r => if 0 ≤ r && r ≤ 10 then { m2 with rating := r } else m2
                | none => m2
      .ok (saveMedia st { m3 with notes := notesForm })

/-- MediaStatusUpdate (src/app/handlers/auth.go:644-670), run through
updateMediaAndRefreshModal (src/app/handlers/base.go:179-205).  The
"completed" branch uses a struct-based `Updates` whose fields are non-zero,
so both watch columns are written; the "planned" branch uses a map-based
`Updates`, so the zero values `watched=false`, `watched_at=nil` are written
as well. -/
def mediaStatusUpdate (st : Store) (tmdbID : Int) (newStatus : String)
    (now : Int) : Except UpdateError Store :=
  if tmdbID == 0 then .error .invalidID
  else match findMediaByTMDB st tmdbID with
  | none => .error .notFound
  | some m =>
      if newStatus == "" || !isValidStatus newStatus then .ok st
      else
        let m1 := { m with status := newStatus }
        if m.mediaType == "tv" then
          if newStatus == "completed" then
            let st1 := { st with episodes := st.episodes.map (fun e =>
              if e.tmdbID == tmdbID && sqlLe e.airDate now then
                { e with watched := true, watchedAt := some now }
              else e) }
            .ok (saveMedia st1 { m1 with progress := countWatched st1 tmdbID })
          else if newStatus == "planned" then
            let st1 := { st with episodes := st.episodes.map (fun e =>
              if e.tmdbID == tmdbID then
                { e with watched := false, watchedAt := none }
              else e) }
            .ok (saveMedia st1 { m1 with progress := 0 })
          else .ok (saveMedia st m1)
        else .ok (saveMedia st m1)

/-- MediaUpdateByTMDB (src/app/handlers/auth.go:620-642): like
MediaStatusUpdate but with only the "completed" special case. -/
def mediaUpdateByTMDB (st : Store) (tmdbID : Int) (newStatus : String)
    (now : Int) : Except UpdateError Store :=
  if tmdbID == 0 then .error .invalidID
  else match findMediaByTMDB st tmdbID with
  | none => .error .notFound
  | some m =>
      if newStatus == "" || !isValidStatus newStatus then .ok st
      else
        let m1 := { m with status := newStatus }
        if newStatus == "completed" && m.mediaType == "tv" then
          let st1 := { st with episodes := st.episodes.map (fun e =>
            if e.tmdbID == tmdbID && sqlLe e.airDate now then
              { e with watched := true, watchedAt := some now }
            else e) }
          .ok (saveMedia st1 { m1 with progress := countWatched st1 tmdbID })
        else .ok (saveMedia st m1)

inductive RemoveError where
  | invalidID
deriving Repr, DecidableEq

/-- MediaRemove (src/app/handlers/auth.go:679-714): `Unscoped()` hard
deletes of every Episode, Season and Media row carrying the tmdb id. -/
def mediaRemove (st : Store) (tmdbID : Int) : Except RemoveError Store :=
  if tmdbID == 0 then .error .invalidID
  else .ok
    { media := st.media.filter (fun m => !(m.tmdbID == tmdbID))
      seasons := st.seasons.filter (fun s => !(s.tmdbID == tmdbID))
      episodes := st.episodes.filter (fun e => !(e.tmdbID == tmdbID)) }

/-- MediaDelete (src/app/handlers/auth.go:511-527): a plain
`DB.Delete(&models.Media{}, id)` - a soft delete that stamps `deleted_at`
on the media row with that primary key and touches nothing else. -/
def mediaDelete (st : Store) (id : Nat) (now : Int) : Store :=
  { st with media := st.media.map (fun m =>
      if m.id == id && m.deletedAt == none then { m with deletedAt := some now }
      else m) }

/-- Status of the (first live) media row of a show. -/
def mediaStatusOf (st : Store) (tmdbID : Int) : Option String :=
  (findMediaByTMDB st tmdbID).map (fun m => m.status)

/-- Progress of the (first live) media row of a show. -/
def mediaProgressOf (st : Store) (tmdbID : Int) : Option Int :=
  (findMediaByTMDB st tmdbID).map (fun m => m.progress)

/-- Rating of the (first live) media row of a show. -/
def mediaRatingOf (st : Store) (tmdbID : Int) : Option Int :=
  (findMediaByTMDB st tmdbID).map (fun m => m.rating)

/-- Notes of the (first live) media row of a show. -/
def mediaNotesOf (st : Store) (tmdbID : Int) : Option String :=
  (findMediaByTMDB st tmdbID).map (fun m => m.notes)

/-- The per-episode invariant of the spec: the watched flag is set exactly
when a watched-at timestamp is stored. -/
def epInv (e : Episode) : Bool :=
  e.watched == e.watchedAt.isSome

/-- The episode invariant over a whole store. -/
def storeEpInv (st : Store) : Bool :=
  st.episodes.all epInv

/-- The fields of an episode row that a sync must never overwrite from
catalog data: the key, the user watch state, and everything else outside the
three metadata columns (name, overview, air date) the upsert writes. -/
def epUserView (e : Episode) : Int × Int × Int × Bool × Option Int × Int × String × Int × Int :=
  (e.tmdbID, e.seasonNumber, e.episodeNumber, e.watched, e.watchedAt,
    e.runtime, e.stillPath, e.voteAverage, e.voteCount)

/-- The watch update written by the not-all-watched branch of the toggle and
by the "completed" status branches. -/
def watchE (now : Int) (e : Episode) : Episode :=
  { e with watched := true, watchedAt := some now }

/-- Eligibility as the corrected claim states it: the "episode" scope admits
a null or non-future air date, while the "season" and "show" scopes demand a
present air date that is not in the future - a null air date is excluded
there. -/
def eligibleSpec (scope : String) (tmdbID seasonNumber episodeNumber now : Int)
    (e : Episode) : Prop :=
  if scope = "episode" then
    e.tmdbID = tmdbID ∧ e.seasonNumber = seasonNumber ∧
      e.episodeNumber = episodeNumber ∧
      (e.airDate = none ∨ ∃ d, e.airDate = some d ∧ d ≤ now)
  else if scope = "season" then
    e.tmdbID = tmdbID ∧ e.seasonNumber = seasonNumber ∧
      ∃ d, e.airDate = some d ∧ d ≤ now
  else if scope = "show" then
    e.tmdbID = tmdbID ∧ ∃ d, e.airDate = some d ∧ d ≤ now
  else False

/-- A tracked tv show with no episode rows, concrete test data for the
progress invariant. -/
def c1Store : Store :=
  { media := [{ id := 1, tmdbID := 100, mediaType := "tv", title := "Show",
                status := "watching", totalEpisodes := 3 }] }

/-- The store after MediaUpdate writes a verbatim progress of 5. -/
def c1After : Store := (mediaUpdate c1Store 1 "" (some 5) none "").toOption.getD {}

/-- A tracked tv show with one aired, unwatched episode. -/
def c1wStore : Store :=
  { media := [{ id := 1, tmdbID := 100, mediaType := "tv", title := "Show",
                status := "planned", totalEpisodes := 2 }],
    episodes := [{ tmdbID := 100, seasonNumber := 1, episodeNumber := 1,
                   airDate := some 1 }] }

/-- The media row stored in `c1wStore`. -/
def c1wMedia : Media :=
  { id := 1, tmdbID := 100, mediaType := "tv", title := "Show",
    status := "planned", totalEpisodes := 2 }

/-- `c1wStore` after an episode-scope toggle. -/
def c1wToggled : Store := (markEpisodes c1wStore 100 1 1 "episode" 10).store

/-- `c1wStore` after a sync with an empty upstream season list. -/
def c1wSynced : Store := (syncMedia c1wStore 100 {} [] 50).toOption.getD {}

/-- A season whose three eligible episodes are all watched. -/
def c2Store : Store :=
  { media := [{ id := 1, tmdbID := 100, mediaType := "tv", title := "Show",
                status := "watching", progress := 3, totalEpisodes := 3 }],
    episodes := [
      { tmdbID := 100, seasonNumber := 1, episodeNumber := 1, airDate := some 1,
        watched := true, watchedAt := some 1 },
      { tmdbID := 100, seasonNumber := 1, episodeNumber := 2, airDate := some 2,
        watched := true, watchedAt := some 2 },
      { tmdbID := 100, seasonNumber := 1, episodeNumber := 3, airDate := some 3,
        watched := true, watchedAt := some 3 }] }

/-- An episode row with a null air date. -/
def c3NullEp : Episode :=
  { tmdbID := 100, seasonNumber := 1, episodeNumber := 1 }

/-- A tracked show whose only episode has a null air date. -/
def c3Store : Store :=
  { media := [{ id := 1, tmdbID := 100, mediaType := "tv", title := "Show",
                status := "planned", totalEpisodes := 1 }],
    episodes := [{ tmdbID := 100, seasonNumber := 1, episodeNumber := 1 }] }

/-- A tracked show with one aired, unwatched episode, for the watched-at
invariant. -/
def c4wStore : Store :=
  { media := [{ id := 1, tmdbID := 100, mediaType := "tv", title := "Show",
                status := "planned", totalEpisodes := 1 }],
    episodes := [{ tmdbID := 100, seasonNumber := 1, episodeNumber := 1,
                   airDate := some 1 }] }

/-- `c4wStore` after a status change to "completed". -/
def c4wStatusOut : Store :=
  (mediaStatusUpdate c4wStore 100 "completed" 10).toOption.getD {}

/-- `c4wStore` after a sync carrying one fresh episode. -/
def c4wSyncOut : Store :=
  (syncMedia c4wStore 100 {}
    [{ season := { tmdbID := 100, seasonNumber := 1, episodeCount := 2 },
       episodes := [{ episodeNumber := 2, airDate := some 2 }] }] 50).toOption.getD {}

/-- A dropped show with one of two aired episodes watched. -/
def c5Store : Store :=
  { media := [{ id := 1, tmdbID := 100, mediaType := "tv", title := "Show",
                status := "dropped", progress := 1, totalEpisodes := 3 }],
    episodes := [
      { tmdbID := 100, seasonNumber := 1, episodeNumber := 1, airDate := some 1,
        watched := true, watchedAt := some 1 },
      { tmdbID := 100, seasonNumber := 1, episodeNumber := 2, airDate := some 2 }] }

/-- The media row stored in `c5Store`. -/
def c5Media : Media :=
  { id := 1, tmdbID := 100, mediaType := "tv", title := "Show",
    status := "dropped", progress := 1, totalEpisodes := 3 }

/-- `c5Store` after a show-scope toggle. -/
def c5After : Store := (markEpisodes c5Store 100 0 0 "show" 10).store

/-- Upstream data with a single episode carrying no air date. -/
def c6NullSeasons : List CatalogSeasonData :=
  [{ season := { tmdbID := 100, seasonNumber := 1, episodeCount := 1 },
     episodes := [{ episodeNumber := 1 }] }]

/-- Adding that title with seeded status "completed". -/
def c6NullOut : Store :=
  (mediaAdd {} 100 "tv" "completed" false {} c6NullSeasons 10 1).toOption.getD {}

/-- Upstream data with one season of three past-aired episodes. -/
def c6Seasons3 : List CatalogSeasonData :=
  [{ season := { tmdbID := 100, seasonNumber := 1, episodeCount := 3 },
     episodes := [{ episodeNumber := 1, airDate := some 1 },
                  { episodeNumber := 2, airDate := some 2 },
                  { episodeNumber := 3, airDate := some 3 }] }]

/-- The add-as-completed scenario of the spec: three past-aired episodes. -/
def c6ScenarioOut : Store :=
  (mediaAdd {} 100 "tv" "completed" false {} c6Seasons3 10 1).toOption.getD {}

/-- A season with two of three eligible episodes watched. -/
def c7Store : Store :=
  { media := [{ id := 1, tmdbID := 100, mediaType := "tv", title := "Show",
                status := "watching", progress := 2, totalEpisodes := 3 }],
    episodes := [
      { tmdbID := 100, seasonNumber := 1, episodeNumber := 1, airDate := some 1,
        watched := true, watchedAt := some 1 },
      { tmdbID := 100, seasonNumber := 1, episodeNumber := 2, airDate := some 2,
        watched := true, watchedAt := some 2 },
      { tmdbID := 100, seasonNumber := 1, episodeNumber := 3, airDate := some 3 }] }

/-- `c7Store` after one season-scope toggle. -/
def c7First : Store := (markEpisodes c7Store 100 1 0 "season" 10).store

/-- `c7Store` after two season-scope toggles. -/
def c7Second : Store := (markEpisodes c7First 100 1 0 "season" 10).store

/-- A season whose single eligible episode is already watched. -/
def c7wStore : Store :=
  { media := [{ id := 1, tmdbID := 100, mediaType := "tv", title := "Show",
                status := "watching", progress := 1, totalEpisodes := 1 }],
    episodes := [
      { tmdbID := 100, seasonNumber := 1, episodeNumber := 1, airDate := some 1,
        watched := true, watchedAt := some 1 }] }

/-- `c7wStore` after one season-scope toggle. -/
def c7wFirst : Store := (markEpisodes c7wStore 100 1 0 "season" 10).store

/-- `c7wStore` after two season-scope toggles. -/
def c7wSecond : Store := (markEpisodes c7wFirst 100 1 0 "season" 10).store

/-- A tracked show with user-owned fields set and one watched episode. -/
def c8St : Store :=
  { media := [{ id := 1, tmdbID := 100, mediaType := "tv", title := "Old",
                status := "watching", progress := 1, totalEpisodes := 2,
                rating := 7, notes := "keep" }],
    episodes := [{ tmdbID := 100, seasonNumber := 1, episodeNumber := 1,
                   name := "old", airDate := some 1,
                   watched := true, watchedAt := some 5 }] }

/-- Fresh catalog details renaming the show. -/
def c8D : CatalogDetails := { title := "New", voteCount := 9 }

/-- Fresh catalog season data renaming episode 1 and adding episode 2. -/
def c8SD : List CatalogSeasonData :=
  [{ season := { tmdbID := 100, seasonNumber := 1, episodeCount := 2 },
     episodes := [{ episodeNumber := 1, name := "new", airDate := some 1 },
                  { episodeNumber := 2, airDate := some 2 }] }]

/-- `c8St` after a full sync against that catalog data. -/
def c8Out : Store := (syncMedia c8St 100 c8D c8SD 50).toOption.getD {}

/-- A tracked season whose only episode airs in the future. -/
def c9Store : Store :=
  { media := [{ id := 1, tmdbID := 100, mediaType := "tv", title := "Show",
                status := "planned", totalEpisodes := 1 }],
    episodes := [{ tmdbID := 100, seasonNumber := 1, episodeNumber := 1,
                   airDate := some 100 }] }

/-- A tracked title with one season and one episode row. -/
def c10Store : Store :=
  { media := [{ id := 1, tmdbID := 100, mediaType := "tv", title := "Show",
                status := "watching", totalEpisodes := 1 }],
    seasons := [{ tmdbID := 100, seasonNumber := 1, name := "S1",
                  episodeCount := 1 }],
    episodes := [{ tmdbID := 100, seasonNumber := 1, episodeNumber := 1,
                   airDate := some 1 }] }

/-- `c10Store` after the tmdb-id based hard remove. -/
def c10RemoveOut : Store := (mediaRemove c10Store 100).toOption.getD {}

theorem foldl_preserve {α σ : Type _} (P : σ → Prop) (f : σ → α → σ)
    (hstep : ∀ s a, P s → P (f s a)) :
    ∀ (l : List α) (s : σ), P s → P (l.foldl f s) := by
  intro l
  induction l with
  | nil => intro s hs; exact hs
  | cons a t ih => intro s hs; exact ih _ (hstep _ _ hs)

theorem filter_full {α : Type _} (p : α → Bool) :
    ∀ l : List α, (l.filter p).length = l.length → ∀ a ∈ l, p a = true := by
  intro l
  induction l with
  | nil => intro _ a ha; cases ha
  | cons b t ih =>
      intro h a ha
      have hb : p b = true := by
        by_contra hb
        rw [List.filter_cons, if_neg hb] at h
        have hle : (t.filter p).length ≤ t.length := List.length_filter_le p t
        simp only [List.length_cons] at h
        omega
      rcases List.mem_cons.mp ha with rfl | hat
      · exact hb
      · refine ih ?_ a hat
        rw [List.filter_cons, if_pos hb] at h
        simpa using h

theorem find?_mem_pred {α : Type _} (p : α → Bool) :
    ∀ (l : List α) (a : α), l.find? p = some a → p a = true := by
  intro l a h
  exact List.find?_some h

/-- Looking up a media row returns one carrying the key and a NULL
`deleted_at`. -/
theorem findMediaByTMDB_props (st : Store) (t : Int) (m : Media)
    (h : findMediaByTMDB st t = some m) : m.tmdbID = t ∧ m.deletedAt = none := by
  have hp := find?_mem_pred _ _ _ h
  simp only [Bool.and_eq_true, beq_iff_eq] at hp
  exact hp

/-- After `Save`, a lookup by the same tmdb id returns the saved row,
provided the row keeps the key, the primary key and a NULL `deleted_at`. -/
theorem find?_save_list (t : Int) (m m' : Media)
    (hid : m'.id = m.id) (hm' : (m'.tmdbID == t && m'.deletedAt == none) = true) :
    ∀ L : List Media,
      L.find? (fun x => x.tmdbID == t && x.deletedAt == none) = some m →
      (L.map (fun x => if x.id == m'.id then m' else x)).find?
          (fun x => x.tmdbID == t && x.deletedAt == none) = some m' := by
  intro L
  induction L with
  | nil => intro h; cases h
  | cons a l ih =>
      intro hf
      rw [List.find?_cons] at hf
      cases hpa : (a.tmdbID == t && a.deletedAt == none) with
      | true =>
          rw [hpa] at hf
          have ham : a = m := by simpa using hf
          subst ham
          simp only [List.map_cons]
          rw [if_pos (by simp [hid])]
          exact List.find?_cons_of_pos _ hm'
      | false =>
          rw [hpa] at hf
          simp only [] at hf
          simp only [List.map_cons]
          by_cases hia : (a.id == m'.id) = true
          · rw [if_pos hia]
            exact List.find?_cons_of_pos _ hm'
          · rw [if_neg hia]
            rw [List.find?_cons_of_neg _ (by simp [hpa])]
            exact ih hf

theorem findMediaByTMDB_save (st : Store) (t : Int) (m m' : Media)
    (hf : findMediaByTMDB st t = some m) (hid : m'.id = m.id)
    (ht : m'.tmdbID = t) (hd : m'.deletedAt = none) :
    findMediaByTMDB (saveMedia st m') t = some m' :=
  find?_save_list t m m' hid (by simp [ht, hd]) st.media hf

theorem saveMedia_episodes (st : Store) (m : Media) :
    (saveMedia st m).episodes = st.episodes := rfl

theorem saveMedia_seasons (st : Store) (m : Media) :
    (saveMedia st m).seasons = st.seasons := rfl

theorem countWatched_congr (st st' : Store) (t : Int)
    (h : st'.episodes = st.episodes) : countWatched st' t = countWatched st t := by
  unfold countWatched; rw [h]

theorem findMediaByTMDB_congr (st st' : Store) (t : Int)
    (h : st'.media = st.media) : findMediaByTMDB st' t = findMediaByTMDB st t := by
  unfold findMediaByTMDB; rw [h]

/-- Behaviour of updateMediaProgress when the media row exists. -/
theorem updateMediaProgress_found (st : Store) (t : Int) (m : Media)
    (hf : findMediaByTMDB st t = some m) :
    mediaProgressOf (updateMediaProgress st t) t = some (countWatched st t) ∧
    mediaStatusOf (updateMediaProgress st t) t =
      some (deriveStatus (countWatched st t) m.totalEpisodes) ∧
    (updateMediaProgress st t).episodes = st.episodes := by
  obtain ⟨ht, hd⟩ := findMediaByTMDB_props st t m hf
  unfold updateMediaProgress
  rw [hf]
  have hsave := findMediaByTMDB_save st t m
    { m with progress := countWatched st t
             status := deriveStatus (countWatched st t) m.totalEpisodes }
    hf rfl ht hd
  refine ⟨?_, ?_, ?_⟩
  · simp [mediaProgressOf, hsave]
  · simp [mediaStatusOf, hsave]
  · exact saveMedia_episodes _ _

theorem applyToggle_media (st : Store) (p : Episode → Bool) (now : Int) :
    (applyToggle st p now).media = st.media := by
  unfold applyToggle
  split <;> rfl

theorem applyToggle_seasons (st : Store) (p : Episode → Bool) (now : Int) :
    (applyToggle st p now).seasons = st.seasons := by
  unfold applyToggle
  split <;> rfl

/-- A toggle whose eligible set is entirely watched leaves the store
unchanged (the struct-based GORM update writes no watch column). -/
theorem applyToggle_allWatched (st : Store) (p : Episode → Bool) (now : Int)
    (h : ∀ e ∈ st.episodes, p e = true → e.watched = true) :
    applyToggle st p now = st := by
  unfold applyToggle
  have hfe : (st.episodes.filter p).filter (fun e => e.watched) = st.episodes.filter p := by
    rw [List.filter_eq_self]
    intro a ha
    exact h a (List.mem_of_mem_filter ha) (List.of_mem_filter ha)
  rw [if_pos (by rw [hfe]; simp)]

/-- After any toggle, every eligible episode of the result is watched,
provided eligibility ignores the watch columns. -/
theorem applyToggle_post (st : Store) (p : Episode → Bool) (now : Int) :
    ∀ e ∈ (applyToggle st p now).episodes, p e = true → e.watched = true := by
  unfold applyToggle
  split
  · next hall =>
      intro e he hpe
      have hlen : ((st.episodes.filter p).filter (fun e => e.watched)).length =
          (st.episodes.filter p).length := by
        simpa using hall
      have := filter_full (fun e => e.watched) (st.episodes.filter p) hlen
      exact this e (List.mem_filter.mpr ⟨he, hpe⟩)
  · intro e he hpe
    simp only [List.mem_map] at he
    obtain ⟨x, hx, hxe⟩ := he
    by_cases hpx : p x = true
    · rw [if_pos hpx] at hxe
      subst hxe
      rfl
    · rw [if_neg hpx] at hxe
      subst hxe
      exact absurd hpe hpx

/-- Eligibility reads only the key and the air date, so the watch update
does not change it. -/
theorem whereMatches_watchE (sc : String) (t sn en now w : Int) (e : Episode) :
    whereMatches sc t sn en now (watchE w e) = whereMatches sc t sn en now e := rfl

/-- A successful markEpisodes request is exactly the toggle followed by the
aggregate recomputation. -/
theorem markEpisodes_ok (st : Store) (t sn en : Int) (sc : String) (now : Int)
    (st' : Store) (h : markEpisodes st t sn en sc now = ⟨st', none⟩) :
    st' = updateMediaProgress
      (applyToggle st (whereMatches sc t sn en now) now) t := by
  unfold markEpisodes runToggle at h
  split at h
  · cases h
  · split at h
    · split at h
      · cases h
      · split at h
        · cases h
        · cases h; rfl
    · split at h
      · split at h
        · cases h
        · split at h
          · cases h
          · cases h; rfl
      · split at h
        · split at h
          · cases h
          · cases h; rfl
        · cases h

theorem updateMediaProgress_episodes (st : Store) (t : Int) :
    (updateMediaProgress st t).episodes = st.episodes := by
  unfold updateMediaProgress
  split
  · rfl
  · exact saveMedia_episodes _ _

theorem storeEpInv_congr (st st' : Store) (h : st'.episodes = st.episodes) :
    storeEpInv st' = storeEpInv st := by
  unfold storeEpInv; rw [h]

theorem epInv_watch (now : Int) (e : Episode) :
    epInv { e with watched := true, watchedAt := some now } = true := rfl

theorem epInv_unwatch (e : Episode) :
    epInv { e with watched := false, watchedAt := none } = true := rfl

theorem epInv_meta (e : Episode) (n o : String) (a : Option Int) :
    epInv { e with name := n, overview := o, airDate := a } = epInv e := rfl

theorem epInv_toEpisode (t sn : Int) (c : CatalogEpisode) :
    epInv (c.toEpisode t sn) = true := rfl

theorem storeEpInv_applyToggle (st : Store) (p : Episode → Bool) (now : Int)
    (h : storeEpInv st = true) : storeEpInv (applyToggle st p now) = true := by
  unfold applyToggle
  split
  · exact h
  · simp only [storeEpInv, List.all_eq_true] at h ⊢
    intro e he
    simp only [List.mem_map] at he
    obtain ⟨x, hx, rfl⟩ := he
    by_cases hpx : p x = true
    · rw [if_pos hpx]; rfl
    · rw [if_neg hpx]; exact h x hx

theorem storeEpInv_upsertEpisodeSync (st : Store) (t sn : Int) (e : Episode)
    (he : epInv e = true) (h : storeEpInv st = true) :
    storeEpInv (upsertEpisodeSync st t sn e) = true := by
  unfold upsertEpisodeSync
  split
  · simp only [storeEpInv, List.all_eq_true] at h ⊢
    intro x hx
    simp only [List.mem_map] at hx
    obtain ⟨y, hy, rfl⟩ := hx
    split
    · exact h y hy
    · exact h y hy
  · simp only [storeEpInv, List.all_eq_true] at h ⊢
    intro x hx
    rcases List.mem_append.mp hx with hl | hr
    · exact h x hl
    · rw [List.mem_singleton.mp hr]; exact he

theorem episodes_upsertSeasonSync (st : Store) (t : Int) (s : Season) :
    (upsertSeasonSync st t s).episodes = st.episodes := by
  unfold upsertSeasonSync
  split <;> rfl

theorem storeEpInv_syncSeasonStep (t : Int) (acc : Store × Int)
    (sd : CatalogSeasonData) (h : storeEpInv acc.1 = true) :
    storeEpInv (syncSeasonStep t acc sd).1 = true := by
  unfold syncSeasonStep
  split
  · simp only []
    refine foldl_preserve (fun s => storeEpInv s = true) _ ?_ _ _ ?_
    · intro s c hs
      exact storeEpInv_upsertEpisodeSync _ _ _ _ (epInv_toEpisode _ _ _) hs
    · show storeEpInv (upsertSeasonSync acc.1 t sd.season) = true
      rw [storeEpInv_congr _ _ (episodes_upsertSeasonSync _ _ _)]
      exact h
  · exact h

theorem storeEpInv_syncMedia (st : Store) (t : Int) (d : CatalogDetails)
    (sd : List CatalogSeasonData) (now : Int) (st' : Store)
    (h : syncMedia st t d sd now = .ok st') (hinv : storeEpInv st = true) :
    storeEpInv st' = true := by
  unfold syncMedia at h
  cases hfind : findMediaByTMDB st t with
  | none => rw [hfind] at h; cases h
  | some m =>
      rw [hfind] at h
      simp only [] at h
      split at h
      · cases h
        rw [storeEpInv_congr _ _ (saveMedia_episodes _ _)]
        refine foldl_preserve (fun s : Store × Int => storeEpInv s.1 = true)
          (syncSeasonStep t) ?_ sd _ ?_
        · intro s a hs
          exact storeEpInv_syncSeasonStep _ _ _ hs
        · show storeEpInv (saveMedia st (syncFields m d now)) = true
          rw [storeEpInv_congr _ _ (saveMedia_episodes _ _)]
          exact hinv
      · cases h
        rw [storeEpInv_congr _ _ (saveMedia_episodes _ _)]
        exact hinv

theorem storeEpInv_addSeasonStep (t : Int) (status : String) (now : Int)
    (acc : Store × Int) (sd : CatalogSeasonData) (h : storeEpInv acc.1 = true) :
    storeEpInv (addSeasonStep t status now acc sd).1 = true := by
  unfold addSeasonStep
  split
  · simp only []
    refine foldl_preserve (fun s => storeEpInv s = true) _ ?_ _ _ ?_
    · intro s c hs
      split
      · exact hs
      · simp only [storeEpInv, List.all_eq_true] at hs ⊢
        intro x hx
        rcases List.mem_append.mp hx with hl | hr
        · exact hs x hl
        · rw [List.mem_singleton.mp hr]
          split
          · exact epInv_watch _ _
          · exact epInv_toEpisode _ _ _
    · split
      · exact h
      · simp only [storeEpInv] at h ⊢
        exact h
  · exact h

theorem storeEpInv_mediaAdd (st : Store) (t : Int) (mt sf : String) (ia : Bool)
    (d : CatalogDetails) (sd : List CatalogSeasonData) (now : Int) (nid : Nat)
    (st' : Store) (h : mediaAdd st t mt sf ia d sd now nid = .ok st')
    (hinv : storeEpInv st = true) : storeEpInv st' = true := by
  unfold mediaAdd at h
  split at h
  · cases h
  · split at h
    · cases h
    · split at h
      · cases h
        have hfold : storeEpInv
            ((sd.foldl (addSeasonStep t (addStatus sf) now) (st, 0)).1) = true := by
          refine foldl_preserve (fun s : Store × Int => storeEpInv s.1 = true)
            (addSeasonStep t (addStatus sf) now) ?_ sd (st, 0) hinv
          intro s a hs
          exact storeEpInv_addSeasonStep _ _ _ _ _ hs
        exact hfold
      · cases h
        exact hinv

theorem storeEpInv_mediaStatusUpdate (st : Store) (t : Int) (ns : String)
    (now : Int) (st' : Store) (h : mediaStatusUpdate st t ns now = .ok st')
    (hinv : storeEpInv st = true) : storeEpInv st' = true := by
  unfold mediaStatusUpdate at h
  split at h
  · cases h
  · cases hfind : findMediaByTMDB st t with
    | none => rw [hfind] at h; cases h
    | some m =>
        rw [hfind] at h
        simp only [] at h
        split at h
        · cases h; exact hinv
        · split at h
          · split at h
            · cases h
              rw [storeEpInv_congr _ _ (saveMedia_episodes _ _)]
              simp only [storeEpInv, List.all_eq_true] at hinv ⊢
              intro e he
              simp only [List.mem_map] at he
              obtain ⟨x, hx, rfl⟩ := he
              split
              · rfl
              · exact hinv x hx
            · split at h
              · cases h
                rw [storeEpInv_congr _ _ (saveMedia_episodes _ _)]
                simp only [storeEpInv, List.all_eq_true] at hinv ⊢
                intro e he
                simp only [List.mem_map] at he
                obtain ⟨x, hx, rfl⟩ := he
                split
                · rfl
                · exact hinv x hx
              · cases h
                rw [storeEpInv_congr _ _ (saveMedia_episodes _ _)]
                exact hinv
          · cases h
            rw [storeEpInv_congr _ _ (saveMedia_episodes _ _)]
            exact hinv

theorem storeEpInv_mediaUpdateByTMDB (st : Store) (t : Int) (ns : String)
    (now : Int) (st' : Store) (h : mediaUpdateByTMDB st t ns now = .ok st')
    (hinv : storeEpInv st = true) : storeEpInv st' = true := by
  unfold mediaUpdateByTMDB at h
  split at h
  · cases h
  · cases hfind : findMediaByTMDB st t with
    | none => rw [hfind] at h; cases h
    | some m =>
        rw [hfind] at h
        simp only [] at h
        split at h
        · cases h; exact hinv
        · split at h
          · cases h
            rw [storeEpInv_congr _ _ (saveMedia_episodes _ _)]
            simp only [storeEpInv, List.all_eq_true] at hinv ⊢
            intro e he
            simp only [List.mem_map] at he
            obtain ⟨x, hx, rfl⟩ := he
            split
            · rfl
            · exact hinv x hx
          · cases h
            rw [storeEpInv_congr _ _ (saveMedia_episodes _ _)]
            exact hinv

theorem storeEpInv_markEpisodes (st : Store) (t sn en : Int) (sc : String)
    (now : Int) (hinv : storeEpInv st = true) :
    storeEpInv (markEpisodes st t sn en sc now).store = true := by
  have hcore : ∀ p : Episode → Bool,
      storeEpInv (updateMediaProgress (applyToggle st p now) t) = true := by
    intro p
    rw [storeEpInv_congr _ _ (updateMediaProgress_episodes _ _)]
    exact storeEpInv_applyToggle _ _ _ hinv
  unfold markEpisodes runToggle
  split
  · exact hinv
  · split
    · split
      · exact hinv
      · split
        · exact hinv
        · exact hcore _
    · split
      · split
        · exact hinv
        · split
          · exact hinv
          · exact hcore _
      · split
        · split
          · exact hinv
          · exact hcore _
        · exact hinv

theorem map_view_eq {α β : Type _} (v : α → β) (f : α → α)
    (hf : ∀ x, v (f x) = v x) : ∀ l : List α, (l.map f).map v = l.map v := by
  intro l
  induction l with
  | nil => rfl
  | cons a tl ih => simp only [List.map_cons, hf, ih]

theorem media_upsertEpisodeSync (st : Store) (t sn : Int) (e : Episode) :
    (upsertEpisodeSync st t sn e).media = st.media := by
  unfold upsertEpisodeSync
  split <;> rfl

theorem media_upsertSeasonSync (st : Store) (t : Int) (s : Season) :
    (upsertSeasonSync st t s).media = st.media := by
  unfold upsertSeasonSync
  split <;> rfl

theorem media_syncSeasonStep (t : Int) (acc : Store × Int) (sd : CatalogSeasonData) :
    (syncSeasonStep t acc sd).1.media = acc.1.media := by
  unfold syncSeasonStep
  split
  · simp only []
    have hfold : ∀ (l : List CatalogEpisode) (s : Store),
        (l.foldl (fun s c => upsertEpisodeSync s t sd.season.seasonNumber
          (c.toEpisode t sd.season.seasonNumber)) s).media = s.media := by
      intro l
      induction l with
      | nil => intro s; rfl
      | cons c tl ih =>
          intro s
          rw [List.foldl_cons, ih, media_upsertEpisodeSync]
    rw [hfold, media_upsertSeasonSync]
  · rfl

theorem media_syncFold (t : Int) (sd : List CatalogSeasonData) :
    ∀ acc : Store × Int, (sd.foldl (syncSeasonStep t) acc).1.media = acc.1.media := by
  induction sd with
  | nil => intro acc; rfl
  | cons a tl ih =>
      intro acc
      rw [List.foldl_cons, ih, media_syncSeasonStep]

/-- The episode table seen through `epUserView` only ever grows during a
sync: existing rows keep every field outside the three metadata columns. -/
theorem view_upsertEpisodeSync (st : Store) (t sn : Int) (e : Episode)
    (L : List (Int × Int × Int × Bool × Option Int × Int × String × Int × Int))
    (h : ∃ suf, st.episodes.map epUserView = L ++ suf) :
    ∃ suf, (upsertEpisodeSync st t sn e).episodes.map epUserView = L ++ suf := by
  obtain ⟨suf, hsuf⟩ := h
  unfold upsertEpisodeSync
  split
  · refine ⟨suf, ?_⟩
    rw [← hsuf]
    simp only []
    refine map_view_eq _ _ ?_ _
    intro x
    split <;> rfl
  · refine ⟨suf ++ [epUserView e], ?_⟩
    simp only [List.map_append, hsuf, List.map_cons, List.map_nil,
      List.append_assoc]

theorem view_syncSeasonStep (t : Int)
    (L : List (Int × Int × Int × Bool × Option Int × Int × String × Int × Int))
    (acc : Store × Int) (sd : CatalogSeasonData)
    (h : ∃ suf, acc.1.episodes.map epUserView = L ++ suf) :
    ∃ suf, (syncSeasonStep t acc sd).1.episodes.map epUserView = L ++ suf := by
  unfold syncSeasonStep
  split
  · simp only []
    refine foldl_preserve
      (fun s : Store => ∃ suf, s.episodes.map epUserView = L ++ suf) _ ?_ _ _ ?_
    · intro s c hs
      exact view_upsertEpisodeSync _ _ _ _ _ hs
    · show ∃ suf, (upsertSeasonSync acc.1 t sd.season).episodes.map epUserView = L ++ suf
      rw [episodes_upsertSeasonSync]
      exact h
  · exact h

theorem syncFields_user (m : Media) (d : CatalogDetails) (now : Int) :
    (syncFields m d now).id = m.id ∧ (syncFields m d now).tmdbID = m.tmdbID ∧
    (syncFields m d now).deletedAt = m.deletedAt ∧
    (syncFields m d now).status = m.status ∧
    (syncFields m d now).rating = m.rating ∧
    (syncFields m d now).notes = m.notes :=
  ⟨rfl, rfl, rfl, rfl, rfl, rfl⟩

/-- Anatomy of a successful sync: the row that a lookup returns afterwards,
and the fact that the episode table only grew through upserts. -/
theorem syncMedia_ok (st : Store) (t : Int) (d : CatalogDetails)
    (sd : List CatalogSeasonData) (now : Int) (st' : Store) (m : Media)
    (hm : findMediaByTMDB st t = some m)
    (h : syncMedia st t d sd now = .ok st') :
    ∃ m', findMediaByTMDB st' t = some m' ∧
      m'.status = m.status ∧ m'.rating = m.rating ∧ m'.notes = m.notes ∧
      ((m.mediaType == "tv") = true → m'.progress = countWatched st' t) := by
  obtain ⟨hmt, hmd⟩ := findMediaByTMDB_props st t m hm
  unfold syncMedia at h
  rw [hm] at h
  simp only [] at h
  split at h
  · cases h
    have h1 : findMediaByTMDB (saveMedia st (syncFields m d now)) t =
        some (syncFields m d now) :=
      findMediaByTMDB_save st t m _ hm rfl hmt hmd
    have h2 : findMediaByTMDB
        ((sd.foldl (syncSeasonStep t) (saveMedia st (syncFields m d now), 0)).1) t =
        some (syncFields m d now) := by
      rw [findMediaByTMDB_congr
        ((saveMedia st (syncFields m d now), (0 : Int)).1) _ t (media_syncFold t sd _)]
      exact h1
    refine ⟨{ syncFields m d now with
        totalEpisodes :=
          (sd.foldl (syncSeasonStep t) (saveMedia st (syncFields m d now), 0)).2,
        progress := countWatched
          (sd.foldl (syncSeasonStep t) (saveMedia st (syncFields m d now), 0)).1 t },
      findMediaByTMDB_save _ t (syncFields m d now) _ h2 rfl hmt hmd,
      rfl, rfl, rfl, fun _ => ?_⟩
    rw [countWatched_congr _ _ t (saveMedia_episodes _ _)]
  · next htv =>
      cases h
      refine ⟨syncFields m d now,
        findMediaByTMDB_save st t m _ hm rfl hmt hmd, rfl, rfl, rfl, fun hc => ?_⟩
      exact absurd hc htv

/-- A sync only appends to the episode table as seen through `epUserView`:
the views of the pre-existing rows form an unchanged prefix. -/
theorem syncMedia_episodes_grow (st : Store) (t : Int) (d : CatalogDetails)
    (sd : List CatalogSeasonData) (now : Int) (st' : Store)
    (h : syncMedia st t d sd now = .ok st') :
    ∃ suf, st'.episodes.map epUserView = st.episodes.map epUserView ++ suf := by
  unfold syncMedia at h
  cases hfind : findMediaByTMDB st t with
  | none => rw [hfind] at h; cases h
  | some m =>
      rw [hfind] at h
      simp only [] at h
      split at h
      · cases h
        rw [saveMedia_episodes]
        refine foldl_preserve (fun s : Store × Int =>
          ∃ suf, s.1.episodes.map epUserView = st.episodes.map epUserView ++ suf)
          (syncSeasonStep t) ?_ sd _ ?_
        · intro s a hs
          exact view_syncSeasonStep t _ s a hs
        · show ∃ suf, (saveMedia st (syncFields m d now)).episodes.map epUserView =
            st.episodes.map epUserView ++ suf
          rw [saveMedia_episodes]
          exact ⟨[], by simp⟩
      · cases h
        rw [saveMedia_episodes]
        exact ⟨[], by simp⟩

/-- Anatomy of a successful toggle: the stored progress is the fresh watched
count and the stored status is the derivation applied to it. -/
theorem markEpisodes_aggregate (st : Store) (t sn en : Int) (sc : String)
    (now : Int) (st' : Store) (m : Media) (hm : findMediaByTMDB st t = some m)
    (h : markEpisodes st t sn en sc now = ⟨st', none⟩) :
    mediaProgressOf st' t = some (countWatched st' t) ∧
    mediaStatusOf st' t = some (deriveStatus (countWatched st' t) m.totalEpisodes) := by
  have hst' := markEpisodes_ok st t sn en sc now st' h
  subst hst'
  have hm1 : findMediaByTMDB (applyToggle st (whereMatches sc t sn en now) now) t =
      some m := by
    rw [findMediaByTMDB_congr st _ t (applyToggle_media _ _ _)]
    exact hm
  obtain ⟨hprog, hstat, heps⟩ := updateMediaProgress_found _ t m hm1
  have hc : countWatched
      (updateMediaProgress (applyToggle st (whereMatches sc t sn en now) now) t) t =
      countWatched (applyToggle st (whereMatches sc t sn en now) now) t :=
    countWatched_congr _ _ t heps
  rw [hc]
  exact ⟨hprog, hstat⟩

theorem media_addSeasonStep (t : Int) (status : String) (now : Int)
    (acc : Store × Int) (sd : CatalogSeasonData) :
    (addSeasonStep t status now acc sd).1.media = acc.1.media := by
  unfold addSeasonStep
  split
  · simp only []
    have hfold : ∀ (l : List CatalogEpisode) (s : Store),
        (l.foldl (fun s c =>
          if s.episodes.any (fun x => x.tmdbID == t &&
              x.seasonNumber == sd.season.seasonNumber &&
              x.episodeNumber == c.episodeNumber) then s
          else
            { s with episodes := s.episodes ++
                [if status == "completed" &&
                    goNilOrBefore (c.toEpisode t sd.season.seasonNumber).airDate now then
                  { c.toEpisode t sd.season.seasonNumber with
                      watched := true, watchedAt := some now }
                else c.toEpisode t sd.season.seasonNumber] }) s).media = s.media := by
      intro l
      induction l with
      | nil => intro s; rfl
      | cons c tl ih =>
          intro s
          rw [List.foldl_cons, ih]
          split <;> rfl
    rw [hfold]
    split <;> rfl
  · rfl

theorem media_addFold (t : Int) (status : String) (now : Int)
    (sd : List CatalogSeasonData) :
    ∀ acc : Store × Int,
      (sd.foldl (addSeasonStep t status now) acc).1.media = acc.1.media := by
  induction sd with
  | nil => intro acc; rfl
  | cons a tl ih =>
      intro acc
      rw [List.foldl_cons, ih, media_addSeasonStep]

/-- Every episode row present after the MediaAdd season loop is either a
pre-existing row or a row created by the loop, and a created row is watched
exactly when the seeded status is "completed" and its air date is nil or
strictly in the past. -/
theorem addSeasonStep_chars (t : Int) (status : String) (now : Int) (st0 : Store)
    (acc : Store × Int) (sd : CatalogSeasonData)
    (h : ∀ e ∈ acc.1.episodes, e ∈ st0.episodes ∨
      (e.tmdbID = t ∧ e.watched = (status == "completed" && goNilOrBefore e.airDate now))) :
    ∀ e ∈ (addSeasonStep t status now acc sd).1.episodes, e ∈ st0.episodes ∨
      (e.tmdbID = t ∧ e.watched = (status == "completed" && goNilOrBefore e.airDate now)) := by
  unfold addSeasonStep
  split
  · simp only []
    refine foldl_preserve (fun s : Store => ∀ e ∈ s.episodes, e ∈ st0.episodes ∨
      (e.tmdbID = t ∧ e.watched =
        (status == "completed" && goNilOrBefore e.airDate now))) _ ?_ _ _ ?_
    · intro s c hs
      split
      · exact hs
      · intro e he
        rcases List.mem_append.mp he with hl | hr
        · exact hs e hl
        · right
          rw [List.mem_singleton.mp hr]
          split
          · next hcond =>
              exact ⟨rfl, hcond.symm⟩
          · next hcond =>
              exact ⟨rfl, (Bool.eq_false_iff.mpr hcond).symm⟩
    · split
      · exact h
      · exact h
  · exact h

/-- Creating a media row makes it the lookup result when no live row with
the key existed before. -/
theorem findMediaByTMDB_append (stA : Store) (t : Int) (nm : Media)
    (h0 : findMediaByTMDB stA t = none)
    (hm : (nm.tmdbID == t && nm.deletedAt == none) = true) :
    findMediaByTMDB { stA with media := stA.media ++ [nm] } t = some nm := by
  show (stA.media ++ [nm]).find? (fun m => m.tmdbID == t && m.deletedAt == none) =
    some nm
  rw [List.find?_append]
  have h0' : stA.media.find? (fun m => m.tmdbID == t && m.deletedAt == none) =
      none := h0
  rw [h0', Option.none_or]
  exact List.find?_cons_of_pos _ hm

/-- Anatomy of a successful completed-status tv add: rows created by the
loop are watched exactly when their air date is nil or strictly past, the
created media row is returned by the lookup, keeps the seeded "completed"
status, and stores the aired-watched count as progress. -/
theorem mediaAdd_completed_ok (st : Store) (t : Int) (ia : Bool)
    (d : CatalogDetails) (sd : List CatalogSeasonData) (now : Int) (nid : Nat)
    (st' : Store) (h : mediaAdd st t "tv" "completed" ia d sd now nid = .ok st') :
    (∀ e ∈ st'.episodes, e ∈ st.episodes ∨
       (e.tmdbID = t ∧ e.watched = goNilOrBefore e.airDate now)) ∧
    ∃ nm, findMediaByTMDB st' t = some nm ∧ nm.status = "completed" ∧
      nm.progress = countWatchedAired st' t now := by
  unfold mediaAdd at h
  simp only [show addStatus "completed" = "completed" from rfl] at h
  split at h
  · cases h
  · split at h
    · cases h
    · next hsome =>
        split at h
        · cases h
          constructor
          · have hchar := foldl_preserve (fun acc : Store × Int =>
              ∀ e ∈ acc.1.episodes, e ∈ st.episodes ∨
                (e.tmdbID = t ∧ e.watched =
                  (("completed" : String) == "completed" &&
                    goNilOrBefore e.airDate now)))
              (addSeasonStep t "completed" now)
              (fun acc a ha => addSeasonStep_chars t "completed" now st acc a ha)
              sd (st, 0) (fun e he => Or.inl he)
            intro e he
            rcases hchar e he with hl | ⟨h1, h2⟩
            · exact Or.inl hl
            · refine Or.inr ⟨h1, ?_⟩
              rw [h2]
              simp
          · have hm0 : findMediaByTMDB st t = none :=
              Option.not_isSome_iff_eq_none.mp hsome
            have h0 : findMediaByTMDB
                ((sd.foldl (addSeasonStep t "completed" now) (st, 0)).1) t = none := by
              rw [findMediaByTMDB_congr ((st, (0 : Int)).1) _ t
                (media_addFold t "completed" now sd (st, 0))]
              exact hm0
            refine ⟨_, findMediaByTMDB_append _ t _ h0
              (by simp only [Bool.and_eq_true, beq_iff_eq]; exact ⟨rfl, rfl⟩),
              rfl, rfl⟩
        · next hc => exact absurd rfl hc

/-- C1 (counterexample): MediaUpdate is a status-change operation that
stores the caller-supplied progress verbatim: on a tracked tv title with no
watched episode rows it leaves progress 5 while the watched count is 0, so
the progress invariant does not hold after every status-change. -/
theorem c1_counterexample :
    mediaUpdate c1Store 1 "" (some 5) none "" = Except.ok c1After ∧
    mediaProgressOf c1After 100 = some 5 ∧ countWatched c1After 100 = 0 ∧
    mediaProgressOf c1After 100 ≠ some (countWatched c1After 100) := by
  refine ⟨rfl, by decide, by decide, by decide⟩

/-- C1 (amended): after every successful toggle on a tracked title, and
after every successful sync of a tracked tv title, the stored progress
equals the count of that title's episode rows with the watched flag set;
the MediaUpdate operation instead writes its progress argument verbatim. -/
theorem c1_progress_after_toggle_and_sync (st : Store) (t sn en : Int)
    (sc : String) (now nowS : Int) (m : Media) (d : CatalogDetails)
    (sd : List CatalogSeasonData) (hm : findMediaByTMDB st t = some m) :
    (∀ st', markEpisodes st t sn en sc now = ⟨st', none⟩ →
        mediaProgressOf st' t = some (countWatched st' t)) ∧
    (m.mediaType = "tv" → ∀ st', syncMedia st t d sd nowS = .ok st' →
        mediaProgressOf st' t = some (countWatched st' t)) := by
  constructor
  · intro st' h
    exact (markEpisodes_aggregate st t sn en sc now st' m hm h).1
  · intro htv st' h
    obtain ⟨m', hf, _, _, _, hp⟩ := syncMedia_ok st t d sd nowS st' m hm h
    have hv : mediaProgressOf st' t = some m'.progress := by
      unfold mediaProgressOf
      rw [hf]
      rfl
    rw [hv, hp (by simp [htv])]

/-- C1 (witness): the amended theorem applied to a tracked show with one
aired unwatched episode, toggled and synced. -/
theorem c1_witness :
    findMediaByTMDB c1wStore 100 = some c1wMedia ∧
    markEpisodes c1wStore 100 1 1 "episode" 10 = ⟨c1wToggled, none⟩ ∧
    mediaProgressOf c1wToggled 100 = some (countWatched c1wToggled 100) ∧
    syncMedia c1wStore 100 {} [] 50 = Except.ok c1wSynced ∧
    mediaProgressOf c1wSynced 100 = some (countWatched c1wSynced 100) := by
  refine ⟨by decide, by decide, ?_, rfl, ?_⟩
  · exact (c1_progress_after_toggle_and_sync c1wStore 100 1 1 "episode" 10 50
      c1wMedia {} [] (by decide)).1 c1wToggled (by decide)
  · exact (c1_progress_after_toggle_and_sync c1wStore 100 1 1 "episode" 10 50
      c1wMedia {} [] (by decide)).2 rfl c1wSynced rfl

/-- C2 (code bug): on a season whose three eligible episodes are all
watched, the toggle succeeds but unwatches nothing - the struct-based GORM
update in the all-watched branch carries only Go zero values and so assigns
no watch column.  The claim (and the code's own toggle intent) says all
three should become unwatched. -/
theorem c2_all_watched_toggle_is_noop :
    c2Store.episodes.all (fun e => e.watched) = true ∧
    (markEpisodes c2Store 100 1 0 "season" 10).error = none ∧
    (markEpisodes c2Store 100 1 0 "season" 10).store.episodes =
      c2Store.episodes := by
  refine ⟨by decide, by decide, by decide⟩

/-- C3 (counterexample): an episode with a null air date is not eligible
for a show-scope toggle - with it as the only episode the toggle is even
rejected as having no eligible episodes, while the claim says a null air
date is included in every scope. -/
theorem c3_counterexample :
    whereMatches "show" 100 0 0 10 c3NullEp = false ∧
    whereMatches "episode" 100 1 1 10 c3NullEp = true ∧
    markEpisodes c3Store 100 0 0 "show" 10 =
      ⟨c3Store, some MarkError.noEligibleEpisodes⟩ := by
  refine ⟨by decide, by decide, by decide⟩

/-- C3 (amended): eligibility for the "episode" scope admits a null or
non-future air date; the "season" and "show" scopes admit only episodes
whose air date is present and not after the current time, so a null air
date is excluded there. -/
theorem c3_eligibility_by_scope (sc : String) (t sn en now : Int) (e : Episode) :
    whereMatches sc t sn en now e = true ↔ eligibleSpec sc t sn en now e := by
  unfold whereMatches eligibleSpec
  by_cases h1 : sc = "episode"
  · subst h1
    cases ha : e.airDate with
    | none => simp [sqlLe, ha, and_assoc]
    | some dd => simp [sqlLe, ha, and_assoc]
  · by_cases h2 : sc = "season"
    · subst h2
      cases ha : e.airDate with
      | none => simp [sqlLe, ha, and_assoc]
      | some dd => simp [sqlLe, ha, and_assoc]
    · by_cases h3 : sc = "show"
      · subst h3
        cases ha : e.airDate with
        | none => simp [sqlLe, ha, and_assoc]
        | some dd => simp [sqlLe, ha, and_assoc]
      · simp [h1, h2, h3]

/-- C3 (witness): the scope equivalence instantiated at the null-air-date
episode under the "show" scope. -/
theorem c3_witness :
    (whereMatches "show" 100 1 1 10 c3NullEp = true ↔
      eligibleSpec "show" 100 1 1 10 c3NullEp) ∧
    eligibleSpec "show" 100 1 1 10 c3NullEp = False := by
  refine ⟨c3_eligibility_by_scope "show" 100 1 1 10 c3NullEp, ?_⟩
  simp [eligibleSpec, c3NullEp]

/-- C4: the watched flag equals the presence of the watched-at timestamp,
and every operation - toggle, sync, add-to-library and both status-change
handlers - preserves this invariant over the whole episode table. -/
theorem c4_watched_iff_watchedat (st : Store) (t sn en : Int) (sc : String)
    (now nowS nowA nowU : Int) (d : CatalogDetails)
    (sd : List CatalogSeasonData) (mt sf ns : String) (ia : Bool) (nid : Nat)
    (hinv : storeEpInv st = true) :
    storeEpInv (markEpisodes st t sn en sc now).store = true ∧
    (∀ st', syncMedia st t d sd nowS = .ok st' → storeEpInv st' = true) ∧
    (∀ st', mediaAdd st t mt sf ia d sd nowA nid = .ok st' →
        storeEpInv st' = true) ∧
    (∀ st', mediaStatusUpdate st t ns nowU = .ok st' → storeEpInv st' = true) ∧
    (∀ st', mediaUpdateByTMDB st t ns nowU = .ok st' → storeEpInv st' = true) :=
  ⟨storeEpInv_markEpisodes st t sn en sc now hinv,
   fun st' h => storeEpInv_syncMedia st t d sd nowS st' h hinv,
   fun st' h => storeEpInv_mediaAdd st t mt sf ia d sd nowA nid st' h hinv,
   fun st' h => storeEpInv_mediaStatusUpdate st t ns nowU st' h hinv,
   fun st' h => storeEpInv_mediaUpdateByTMDB st t ns nowU st' h hinv⟩

/-- C4 (witness): the invariant theorem applied to a store with one aired
unwatched episode, through a toggle, a sync with a fresh episode, and a
status change to "completed". -/
theorem c4_witness :
    storeEpInv c4wStore = true ∧
    storeEpInv (markEpisodes c4wStore 100 1 1 "episode" 10).store = true ∧
    syncMedia c4wStore 100 {}
      [{ season := { tmdbID := 100, seasonNumber := 1, episodeCount := 2 },
         episodes := [{ episodeNumber := 2, airDate := some 2 }] }] 50 =
      Except.ok c4wSyncOut ∧
    storeEpInv c4wSyncOut = true ∧
    mediaStatusUpdate c4wStore 100 "completed" 10 = Except.ok c4wStatusOut ∧
    storeEpInv c4wStatusOut = true := by
  have hthm := c4_watched_iff_watchedat c4wStore 100 1 1 "episode" 10 50 10 10 {}
    [{ season := { tmdbID := 100, seasonNumber := 1, episodeCount := 2 },
       episodes := [{ episodeNumber := 2, airDate := some 2 }] }]
    "tv" "completed" "completed" false 2 (by decide)
  refine ⟨by decide, hthm.1, rfl, ?_, rfl, ?_⟩
  · exact hthm.2.1 c4wSyncOut rfl
  · exact hthm.2.2.2.1 c4wStatusOut rfl

/-- C5 (counterexample): a show-scope toggle on a dropped title recomputes
the status and overwrites "dropped" with "watching", while the claim says a
dropped record keeps its status. -/
theorem c5_counterexample :
    mediaStatusOf c5Store 100 = some "dropped" ∧
    (markEpisodes c5Store 100 0 0 "show" 10).error = none ∧
    mediaStatusOf c5After 100 = some "watching" := by
  refine ⟨by decide, by decide, by decide⟩

/-- C5 (amended): whenever the progress/status recomputation runs after a
toggle it rewrites the status of every record, dropped ones included:
"planned" when the watched count is 0, "completed" when the count is
positive and at least the known nonzero total episode count, "watching"
otherwise. -/
theorem c5_status_recompute_overwrites_all (st : Store) (t sn en : Int)
    (sc : String) (now : Int) (st' : Store) (m : Media)
    (hm : findMediaByTMDB st t = some m)
    (h : markEpisodes st t sn en sc now = ⟨st', none⟩) :
    mediaStatusOf st' t =
      some (deriveStatus (countWatched st' t) m.totalEpisodes) :=
  (markEpisodes_aggregate st t sn en sc now st' m hm h).2

/-- C5 (witness): the amended theorem applied to the dropped title of the
counterexample. -/
theorem c5_witness :
    findMediaByTMDB c5Store 100 = some c5Media ∧
    markEpisodes c5Store 100 0 0 "show" 10 = ⟨c5After, none⟩ ∧
    mediaStatusOf c5After 100 =
      some (deriveStatus (countWatched c5After 100) c5Media.totalEpisodes) := by
  refine ⟨by decide, by decide, ?_⟩
  exact c5_status_recompute_overwrites_all c5Store 100 0 0 "show" 10 c5After
    c5Media (by decide) (by decide)

/-- C6 (counterexample): adding a tv title as "completed" marks an episode
with no air date as watched, while the claim says such episodes are treated
as unaired and left unwatched.  (The episode is nevertheless not counted in
progress, whose query demands a non-null air date.) -/
theorem c6_counterexample :
    mediaAdd {} 100 "tv" "completed" false {} c6NullSeasons 10 1 =
      Except.ok c6NullOut ∧
    c6NullOut.episodes.all (fun e => e.watched && e.airDate == none) = true ∧
    mediaProgressOf c6NullOut 100 = some 0 := by
  refine ⟨rfl, by decide, by decide⟩

/-- C6 (amended): when a tv title is added with seeded status "completed"
into a store holding no episode rows for it, every episode row created by
the add is watched exactly when its air date is absent or strictly before
the add time (an absent air date counts as aired here, not as unaired); the
created record keeps status "completed" and stores as progress the count of
watched episodes whose air date is present and not in the future. -/
theorem c6_add_completed_marks (st : Store) (t : Int) (ia : Bool)
    (d : CatalogDetails) (sd : List CatalogSeasonData) (now : Int) (nid : Nat)
    (st' : Store) (hfresh : ∀ e ∈ st.episodes, e.tmdbID ≠ t)
    (h : mediaAdd st t "tv" "completed" ia d sd now nid = .ok st') :
    (∀ e ∈ st'.episodes, e.tmdbID = t →
        e.watched = goNilOrBefore e.airDate now) ∧
    mediaStatusOf st' t = some "completed" ∧
    mediaProgressOf st' t = some (countWatchedAired st' t now) := by
  obtain ⟨hchar, nm, hf, hs, hp⟩ := mediaAdd_completed_ok st t ia d sd now nid st' h
  refine ⟨?_, ?_, ?_⟩
  · intro e he het
    rcases hchar e he with hl | ⟨_, hw⟩
    · exact absurd het (hfresh e hl)
    · exact hw
  · unfold mediaStatusOf
    rw [hf]
    simp [hs]
  · unfold mediaProgressOf
    rw [hf]
    simp [hp]

/-- C6 (witness): the amended theorem applied to the spec's scenario - one
season with three past-aired episodes added as "completed" gives progress 3,
status "completed" and all three episodes watched. -/
theorem c6_witness :
    mediaAdd {} 100 "tv" "completed" false {} c6Seasons3 10 1 =
      Except.ok c6ScenarioOut ∧
    (∀ e ∈ c6ScenarioOut.episodes, e.tmdbID = 100 →
        e.watched = goNilOrBefore e.airDate 10) ∧
    mediaStatusOf c6ScenarioOut 100 = some "completed" ∧
    mediaProgressOf c6ScenarioOut 100 = some (countWatchedAired c6ScenarioOut 100 10) ∧
    mediaProgressOf c6ScenarioOut 100 = some 3 ∧
    c6ScenarioOut.episodes.all (fun e => e.watched) = true := by
  have hthm := c6_add_completed_marks {} 100 false {} c6Seasons3 10 1
    c6ScenarioOut (by intro e he; cases he) rfl
  exact ⟨rfl, hthm.1, hthm.2.1, hthm.2.2, by decide, by decide⟩

/-- C7 (counterexample): toggling a season with two of three eligible
episodes watched twice in a row does not restore the starting state - the
first toggle watches all three and the second, finding everything watched,
changes no episode row. -/
theorem c7_counterexample :
    c7Store.episodes.map (fun e => e.watched) = [true, true, false] ∧
    (markEpisodes c7Store 100 1 0 "season" 10).error = none ∧
    markEpisodes c7First 100 1 0 "season" 10 = ⟨c7Second, none⟩ ∧
    c7Second.episodes.map (fun e => e.watched) = [true, true, true] := by
  refine ⟨by decide, by decide, by decide, by decide⟩

/-- C7 (amended): a double toggle of the same scope with an unchanged clock
restores the episode rows exactly when every eligible episode was already
watched (both passes are then no-ops); in every other starting state each
eligible episode ends watched rather than restored. -/
theorem c7_double_toggle (st : Store) (t sn en : Int) (sc : String) (now : Int)
    (st1 st2 : Store)
    (h1 : markEpisodes st t sn en sc now = ⟨st1, none⟩)
    (h2 : markEpisodes st1 t sn en sc now = ⟨st2, none⟩) :
    ((∀ e ∈ st.episodes, whereMatches sc t sn en now e = true →
        e.watched = true) → st2.episodes = st.episodes) ∧
    (∀ e ∈ st2.episodes, whereMatches sc t sn en now e = true →
        e.watched = true) := by
  have e1 := markEpisodes_ok st t sn en sc now st1 h1
  have e2 := markEpisodes_ok st1 t sn en sc now st2 h2
  subst e1
  subst e2
  constructor
  · intro hall
    have hid1 : applyToggle st (whereMatches sc t sn en now) now = st :=
      applyToggle_allWatched st _ now hall
    rw [hid1]
    have hallU : ∀ e ∈ (updateMediaProgress st t).episodes,
        whereMatches sc t sn en now e = true → e.watched = true := by
      rw [updateMediaProgress_episodes]
      exact hall
    have hid2 : applyToggle (updateMediaProgress st t)
        (whereMatches sc t sn en now) now = updateMediaProgress st t :=
      applyToggle_allWatched _ _ now hallU
    rw [hid2, updateMediaProgress_episodes, updateMediaProgress_episodes]
  · intro e he hpe
    rw [updateMediaProgress_episodes] at he
    exact applyToggle_post _ _ now e he hpe

/-- C7 (witness): the amended theorem applied to a season whose single
eligible episode is already watched - a double toggle leaves the episode
rows unchanged. -/
theorem c7_witness :
    c7wStore.episodes.all (fun e => e.watched) = true ∧
    markEpisodes c7wStore 100 1 0 "season" 10 = ⟨c7wFirst, none⟩ ∧
    markEpisodes c7wFirst 100 1 0 "season" 10 = ⟨c7wSecond, none⟩ ∧
    c7wSecond.episodes = c7wStore.episodes := by
  refine ⟨by decide, by decide, by decide, ?_⟩
  exact (c7_double_toggle c7wStore 100 1 0 "season" 10 c7wFirst c7wSecond
    (by decide) (by decide)).1 (by decide)

/-- C8: a full sync never changes the stored status, rating or notes, and
the pre-existing episode rows keep every field outside the three metadata
columns (name, overview, air date) the upsert writes - in particular their
watched flag and watched-at timestamp. -/
theorem c8_sync_frame (st : Store) (t : Int) (d : CatalogDetails)
    (sd : List CatalogSeasonData) (now : Int) (st' : Store)
    (h : syncMedia st t d sd now = .ok st') :
    mediaStatusOf st' t = mediaStatusOf st t ∧
    mediaRatingOf st' t = mediaRatingOf st t ∧
    mediaNotesOf st' t = mediaNotesOf st t ∧
    (st'.episodes.map epUserView).take st.episodes.length =
      st.episodes.map epUserView := by
  cases hm : findMediaByTMDB st t with
  | none =>
      unfold syncMedia at h
      rw [hm] at h
      cases h
  | some m =>
      obtain ⟨m', hf, hs, hr, hn, _⟩ := syncMedia_ok st t d sd now st' m hm h
      obtain ⟨suf, hsuf⟩ := syncMedia_episodes_grow st t d sd now st' h
      have hlen : st.episodes.length = (st.episodes.map epUserView).length :=
        (List.length_map _ _).symm
      refine ⟨?_, ?_, ?_, ?_⟩
      · unfold mediaStatusOf
        rw [hf, hm]
        simp [hs]
      · unfold mediaRatingOf
        rw [hf, hm]
        simp [hr]
      · unfold mediaNotesOf
        rw [hf, hm]
        simp [hn]
      · rw [hsuf, hlen, List.take_left]

/-- C8 (witness): the frame theorem applied to a tracked show with a rated,
annotated record and one watched episode, synced against data that renames
the show and the episode and adds a second episode. -/
theorem c8_witness :
    syncMedia c8St 100 c8D c8SD 50 = Except.ok c8Out ∧
    mediaStatusOf c8Out 100 = mediaStatusOf c8St 100 ∧
    mediaRatingOf c8Out 100 = mediaRatingOf c8St 100 ∧
    mediaNotesOf c8Out 100 = mediaNotesOf c8St 100 ∧
    (c8Out.episodes.map epUserView).take c8St.episodes.length =
      c8St.episodes.map epUserView := by
  have hthm := c8_sync_frame c8St 100 c8D c8SD 50 c8Out rfl
  exact ⟨rfl, hthm.1, hthm.2.1, hthm.2.2.1, hthm.2.2.2⟩

/-- C9: a toggle whose eligible set is empty is rejected with the
no-eligible-episodes error before any mutation: the returned store is the
input store unchanged. -/
theorem c9_no_eligible_rejected (st : Store) (t sn en : Int) (sc : String)
    (now : Int) (ht : (t == 0) = false)
    (hsc : sc = "episode" ∧ (sn == 0) = false ∧ (en == 0) = false ∨
      sc = "season" ∧ (sn == 0) = false ∨ sc = "show")
    (hempty : st.episodes.filter (whereMatches sc t sn en now) = []) :
    markEpisodes st t sn en sc now = ⟨st, some .noEligibleEpisodes⟩ := by
  unfold markEpisodes runToggle
  rcases hsc with ⟨h1, h2, h3⟩ | ⟨h1, h2⟩ | h1
  · subst h1
    simp [ht, h2, h3, hempty]
  · subst h1
    simp [ht, h2, hempty]
  · subst h1
    simp [ht, hempty]

/-- C9 (witness): the rejection theorem applied to a season whose only
episode airs in the future. -/
theorem c9_witness :
    c9Store.episodes.filter (whereMatches "season" 100 1 0 10) = [] ∧
    markEpisodes c9Store 100 1 0 "season" 10 =
      ⟨c9Store, some MarkError.noEligibleEpisodes⟩ := by
  refine ⟨by decide, ?_⟩
  exact c9_no_eligible_rejected c9Store 100 1 0 "season" 10 (by decide)
    (Or.inr (Or.inl ⟨rfl, by decide⟩)) (by decide)

/-- C10 (counterexample): the id-based MediaDelete handler, routed as the
admin delete operation, soft-deletes only the media row: the season and
episode rows of the title survive, contradicting the claim that removal
leaves no rows for the external id. -/
theorem c10_counterexample :
    (mediaDelete c10Store 1 99).episodes.length = 1 ∧
    (mediaDelete c10Store 1 99).seasons.length = 1 ∧
    (mediaDelete c10Store 1 99).media.length = 1 ∧
    (mediaDelete c10Store 1 99).media.all
      (fun m => m.deletedAt == some 99) = true := by
  refine ⟨by decide, by decide, by decide, by decide⟩

/-- C10 (amended): the tmdb-id based remove operation hard-deletes the
media, season and episode rows of the title together, leaving no row with
that external id; the id-based delete operation instead soft-deletes the
media row alone, leaving every season and episode row in place and changing
nothing but the deleted-at stamp. -/
theorem c10_remove_hard_delete (st : Store) (t : Int) (id : Nat) (now : Int)
    (st' : Store) (h : mediaRemove st t = .ok st') :
    (st'.episodes.filter (fun e => e.tmdbID == t) = [] ∧
     st'.seasons.filter (fun s => s.tmdbID == t) = [] ∧
     st'.media.filter (fun m => m.tmdbID == t) = []) ∧
    ((mediaDelete st id now).episodes = st.episodes ∧
     (mediaDelete st id now).seasons = st.seasons ∧
     (mediaDelete st id now).media.map (fun m => { m with deletedAt := none }) =
       st.media.map (fun m => { m with deletedAt := none })) := by
  constructor
  · unfold mediaRemove at h
    split at h
    · cases h
    · cases h
      refine ⟨?_, ?_, ?_⟩ <;>
        · rw [List.filter_filter]
          rw [List.filter_eq_nil_iff.mpr]
          intro a _
          simp
  · refine ⟨rfl, rfl, ?_⟩
    unfold mediaDelete
    rw [List.map_map]
    have hpt : ∀ m : Media,
        ((fun m : Media => { m with deletedAt := none }) ∘
          (fun m : Media => if m.id == id && m.deletedAt == none then
            { m with deletedAt := some now } else m)) m =
        { m with deletedAt := none } := by
      intro m
      simp only [Function.comp]
      split <;> rfl
    exact List.map_congr_left (fun a _ => hpt a)

/-- C10 (witness): the amended theorem applied to a title with one season
and one episode row: remove leaves nothing, delete keeps the rows. -/
theorem c10_witness :
    mediaRemove c10Store 100 = Except.ok c10RemoveOut ∧
    c10RemoveOut.episodes.filter (fun e => e.tmdbID == 100) = [] ∧
    c10RemoveOut.seasons.filter (fun s => s.tmdbID == 100) = [] ∧
    c10RemoveOut.media.filter (fun m => m.tmdbID == 100) = [] ∧
    (mediaDelete c10Store 1 99).episodes = c10Store.episodes := by
  have hthm := c10_remove_hard_delete c10Store 100 1 99 c10RemoveOut rfl
  exact ⟨rfl, hthm.1.1, hthm.1.2.1, hthm.1.2.2, hthm.2.1⟩

end MiniBlog

